import Mathlib

/-!
Verification development for the consulta-jamef repository.

The repository exposes an HTTP API (src/api.py) that tracks a shipment by
invoice number: a request creates a job in an in-memory registry, a
background execution scrapes the carrier site and writes the outcome back
into the registry, and clients poll the job by id.  src/consulta_jamef.py is
an interactive variant of the same scraping logic.

This file gives a shallow embedding of the pure core of that code:
the label/value normalization state machine that builds the event history,
the assembly of the canonical result, the job registry operations
(creation, eviction, completion, polling), and a small transition system
describing the reachable registry states.  Browser and network effects are
modelled as inputs (the extracted page data, the fetch outcome).
-/

/-- The recognized field names of one history event, mirroring the values of
the keyMap object in the scraping scripts. -/
inductive Campo where
  | data
  | status
  | estado_origem
  | municipio_origem
  | estado_destino
  | municipio_destino
deriving DecidableEq

/-- One event record of the shipment history, as built by the scraping loop.
A JS object key is present exactly when the corresponding option is some. -/
structure Evento where
  data : Option String := none
  status : Option String := none
  estado_origem : Option String := none
  municipio_origem : Option String := none
  estado_destino : Option String := none
  municipio_destino : Option String := none
deriving DecidableEq

/-- The fresh record, corresponding to the JS literal with no keys. -/
def Evento.empty : Evento := {}

/-- True when the record has no keys, i.e. Object.keys(current).length is 0. -/
def Evento.vazio (e : Evento) : Bool :=
  e.data.isNone && e.status.isNone && e.estado_origem.isNone &&
  e.municipio_origem.isNone && e.estado_destino.isNone && e.municipio_destino.isNone

/-- Assignment current[field] = value of the scraping loop. -/
def Evento.set (e : Evento) (f : Campo) (v : String) : Evento :=
  match f with
  | .data => { e with data := some v }
  | .status => { e with status := some v }
  | .estado_origem => { e with estado_origem := some v }
  | .municipio_origem => { e with municipio_origem := some v }
  | .estado_destino => { e with estado_destino := some v }
  | .municipio_destino => { e with municipio_destino := some v }

/-- The keyMap lookup table of src/api.py lines 134-141 (the same table
appears in src/consulta_jamef.py lines 77-84). -/
def keyMap (rawKey : String) : Option Campo :=
  if rawKey = "Data" then some Campo.data
  else if rawKey = "Status" then some Campo.status
  else if rawKey = "Estado origem" then some Campo.estado_origem
  else if rawKey = "Município origem" then some Campo.municipio_origem
  else if rawKey = "Estado destino" then some Campo.estado_destino
  else if rawKey = "Município destino" then some Campo.municipio_destino
  else none

/-- The body of the scraping loop for one label/value pair: the flushed
records (pushed to entries) and the new in-progress record.  Mirrors
src/api.py lines 147-154: on the Data label the current record is pushed
when it has keys and a fresh record is started; then a recognized label
assigns its field. -/
def pairStep (current : Evento) (rawKey value : String) : List Evento × Evento :=
  let flushed := if rawKey = "Data" then (if current.vazio then [] else [current]) else []
  let cur1 := if rawKey = "Data" then Evento.empty else current
  let cur2 :=
    match keyMap rawKey with
    | some f => Evento.set cur1 f value
    | none => cur1
  (flushed, cur2)

/-- The scraping loop of src/api.py lines 142-157 viewed over the flat
ordered list of label/value pairs it extracts, including the trailing push
of a non-empty in-progress record. -/
def scanPairs : List (String × String) → Evento → List Evento
  | [], current => if current.vazio then [] else [current]
  | (rawKey, value) :: rest, current =>
    (pairStep current rawKey value).1 ++ scanPairs rest (pairStep current rawKey value).2

/-- The event history built from a list of label/value pairs, starting from
the fresh record (src/api.py line 143: let current = an empty object). -/
def historicoPairs (pairs : List (String × String)) : List Evento :=
  scanPairs pairs Evento.empty

/-- One paragraph of the history popup markup: the text content of its first
bold element when one exists, and the full text content of the paragraph. -/
structure Para where
  bold : Option String
  text : String

/-- True when the pattern is an initial segment of the character list. -/
def leadsWith : List Char → List Char → Bool
  | [], _ => true
  | _ :: _, [] => false
  | p :: ps, c :: cs => decide (p = c) && leadsWith ps cs

/-- Replacement of the first occurrence of a pattern in a character list,
following the semantics of the JS String.replace with a string pattern. -/
def replaceFirstChars (pat rep : List Char) : List Char → List Char
  | [] => if leadsWith pat [] then rep else []
  | c :: cs =>
    if leadsWith pat (c :: cs) then rep ++ List.drop pat.length (c :: cs)
    else c :: replaceFirstChars pat rep cs

/-- String.replace of JS with a string pattern: replaces only the first
occurrence. -/
def replaceFirst (s pat rep : String) : String :=
  ⟨replaceFirstChars pat.data rep.data s.data⟩

/-- The JS String.trim: removes whitespace from both ends. -/
def jsTrim (s : String) : String :=
  ⟨((s.data.dropWhile Char.isWhitespace).reverse.dropWhile Char.isWhitespace).reverse⟩

/-- Label and value extracted from a paragraph that has a bold element:
the bold text with its first colon removed and trimmed, and the paragraph
text with the first occurrence of the bold text removed and trimmed
(src/api.py lines 147-149). -/
def extractPair (p : Para) : Option (String × String) :=
  match p.bold with
  | none => none
  | some b => some (jsTrim (replaceFirst b ":" ""), jsTrim (replaceFirst p.text b ""))

/-- The scraping loop of src/api.py lines 144-157 over the paragraphs of the
popup content: a paragraph with no bold element is skipped, otherwise its
label/value pair drives the state machine. -/
def scanParas : List Para → Evento → List Evento
  | [], current => if current.vazio then [] else [current]
  | p :: rest, current =>
    match p.bold with
    | none => scanParas rest current
    | some b =>
      let rawKey := jsTrim (replaceFirst b ":" "")
      let value := jsTrim (replaceFirst p.text b "")
      (pairStep current rawKey value).1 ++ scanParas rest (pairStep current rawKey value).2

/-- Definition following the wording of the spec (section 4.4 normalization
rule): encountering the Data label flushes the current record when it is
non-empty and starts a new event record carrying that date; every other
recognized label populates its field of the current record; unrecognized
labels are ignored; a trailing non-empty record is flushed at the end. -/
def specScan : List (String × String) → Evento → List Evento
  | [], current => if current.vazio then [] else [current]
  | (label, value) :: rest, current =>
    if label = "Data" then
      (if current.vazio then [] else [current]) ++
        specScan rest { Evento.empty with data := some value }
    else
      match keyMap label with
      | some f => specScan rest (Evento.set current f value)
      | none => specScan rest current

theorem scanParas_eq_scanPairs (paras : List Para) (cur : Evento) :
    scanParas paras cur = scanPairs (paras.filterMap extractPair) cur := by
  induction paras generalizing cur with
  | nil => rfl
  | cons p rest ih =>
    cases hb : p.bold with
    | none => simp [scanParas, extractPair, hb, ih]
    | some b => simp [scanParas, scanPairs, extractPair, hb, ih]

/-- The summary data extracted from the results page by the first
page.evaluate of src/api.py lines 104-124. -/
structure DadosPagina where
  previsao : Option String := none
  origem : Option String := none
  destino : Option String := none
deriving DecidableEq

/-- The canonical output of a successful lookup (the dict returned by
scrape_jamef, validated as the model of src/api.py lines 50-56). -/
structure ResultadoRastreamento where
  nf : String
  origem : Option String
  destino : Option String
  previsao_entrega : Option String
  status_atual : Option String
  historico : List Evento
deriving DecidableEq

/-- The dict literal returned by scrape_jamef, src/api.py lines 161-168:
status_atual is historico[0].get of the status key when historico is
non-empty, else None. -/
def montarResultado (numero_nf : String) (dados : DadosPagina)
    (historico : List Evento) : ResultadoRastreamento :=
  { nf := numero_nf
    origem := dados.origem
    destino := dados.destino
    previsao_entrega := dados.previsao
    status_atual :=
      match historico with
      | [] => none
      | e :: _ => e.status
    historico := historico }

/-- The pure content of scrape_jamef (src/api.py lines 72-171), with the
browser effects abstracted as inputs: the summary data extracted by the
first page.evaluate and the popup paragraphs scanned by the second. -/
def scrape_jamef (numero_nf cnpj : String) (dados : DadosPagina)
    (paras : List Para) : ResultadoRastreamento :=
  montarResultado numero_nf dados (scanParas paras Evento.empty)

/-- One entry of the in-memory jobs dict, src/api.py lines 29-30 and the
literal inserted at lines 205-210. -/
structure Job where
  status : String
  result : Option ResultadoRastreamento
  error : Option String
  created_at : Int
deriving DecidableEq

/-- The jobs dict, modelled as a partial map from job id to job. -/
def Registry : Type := String → Option Job

/-- The initial empty jobs dict of src/api.py line 30. -/
def emptyRegistry : Registry := fun _ => none

/-- Insertion or overwrite of one key of the jobs dict. -/
def setJob (r : Registry) (jid : String) (j : Job) : Registry :=
  fun k => if k = jid then some j else r k

/-- Mutation of one field of the job stored under a key, as in the
statements jobs[job_id][field] = value: a missing key raises KeyError,
modelled as none. -/
def updateJob (r : Registry) (jid : String) (f : Job → Job) : Option Registry :=
  match r jid with
  | none => none
  | some j => some (setJob r jid (f j))

/-- The eviction pass limpar_jobs_antigos of src/api.py lines 32-37:
removes every job whose age at the current time exceeds 3600 seconds. -/
def limpar_jobs_antigos (r : Registry) (agora : Int) : Registry :=
  fun jid =>
    match r jid with
    | some j => if agora - j.created_at > 3600 then none else some j
    | none => none

/-- The message attached to the KeyError raised by a dict access on a
missing job id. -/
def keyErrorMsg (jid : String) : String := "KeyError: " ++ jid

/-- The background execution executar_job of src/api.py lines 174-182.
The fetch outcome stands for the awaited scrape_jamef call: ok with the
resultado, or error with the text of the raised exception.  The returned
pair is the registry after the mutations and the uncaught exception, if
one escapes the function.  A KeyError raised by the success-path writes is
caught by the except block; a KeyError raised inside the except block
escapes. -/
def executar_job (r : Registry) (jid : String)
    (fetch : Except String ResultadoRastreamento) : Registry × Option String :=
  let handler := fun (r1 : Registry) (msg : String) =>
    match updateJob r1 jid (fun j => { j with status := "error" }) with
    | none => (r1, some (keyErrorMsg jid))
    | some r2 =>
      match updateJob r2 jid (fun j => { j with error := some msg }) with
      | none => (r2, some (keyErrorMsg jid))
      | some r3 => (r3, none)
  match fetch with
  | .error e => handler r e
  | .ok resultado =>
    match updateJob r jid (fun j => { j with status := "done" }) with
    | none => handler r (keyErrorMsg jid)
    | some r1 =>
      match updateJob r1 jid (fun j => { j with result := some resultado }) with
      | none => handler r1 (keyErrorMsg jid)
      | some r2 => (r2, none)

/-- The response model of the rastrear endpoint, src/api.py lines 58-61. -/
structure JobIniciado where
  job_id : String
  status : String
  message : String
deriving DecidableEq

/-- The job literal inserted at submission, src/api.py lines 205-210. -/
def novoJob (now : Int) : Job :=
  { status := "processing", result := none, error := none, created_at := now }

/-- The rastrear endpoint of src/api.py lines 192-218: housekeeping
eviction first, then insertion of a fresh processing job, then scheduling
of the background task (modelled by pushing the job id onto the pending
list), then the immediate response.  The fresh uuid and the current time
are inputs. -/
def rastrear (r : Registry) (pending : List String) (now : Int)
    (jid numero_nf cnpj : String) : Registry × List String × JobIniciado :=
  let r1 := limpar_jobs_antigos r now
  let r2 := setJob r1 jid (novoJob now)
  (r2, jid :: pending,
    { job_id := jid
      status := "processing"
      message := "Consulta da NF " ++ numero_nf ++
        " iniciada. Verifique o resultado em /status/" ++ jid })

/-- The response model of the status endpoint, src/api.py lines 63-67. -/
structure JobStatus where
  job_id : String
  status : String
  result : Option ResultadoRastreamento
  error : Option String
deriving DecidableEq

/-- The status endpoint of src/api.py lines 221-238: a missing job id
yields the 404 response, modelled as none; otherwise the job fields are
returned.  The endpoint only reads the jobs dict. -/
def status (r : Registry) (jid : String) : Option JobStatus :=
  match r jid with
  | none => none
  | some j => some { job_id := jid, status := j.status, result := j.result, error := j.error }

/-- The default payer id CNPJ_PADRAO of src/api.py line 19. -/
def CNPJ_PADRAO : String := "48775191000190"

/-- The observable server state: the jobs dict, the job ids whose scheduled
background task has not yet run, and every job id ever issued (uuid4 ids
are never reused). -/
structure SysState where
  registry : Registry
  pending : List String
  used : List String

/-- One transition of the server: a rastrear request with a fresh uuid, or
the run of one scheduled background task with some fetch outcome. -/
inductive Step : SysState → SysState → Prop where
  | submit (s : SysState) (now : Int) (jid nf cnpj : String) (h : jid ∉ s.used) :
      Step s
        { registry := (rastrear s.registry s.pending now jid nf cnpj).1
          pending := (rastrear s.registry s.pending now jid nf cnpj).2.1
          used := jid :: s.used }
  | run (s : SysState) (jid : String) (fetch : Except String ResultadoRastreamento)
      (h : jid ∈ s.pending) :
      Step s
        { registry := (executar_job s.registry jid fetch).1
          pending := s.pending.erase jid
          used := s.used }

/-- The states reachable from the fresh server (empty dict, nothing
scheduled, no id issued). -/
inductive Reachable : SysState → Prop where
  | init : Reachable { registry := emptyRegistry, pending := [], used := [] }
  | step {s s2 : SysState} : Reachable s → Step s s2 → Reachable s2

/-- The self-consistent job shapes: processing with neither outcome field,
done with a result and no error, or error with a message and no result. -/
def JobShape (j : Job) : Prop :=
  (j.status = "processing" ∧ j.result = none ∧ j.error = none) ∨
  (j.status = "done" ∧ j.result.isSome ∧ j.error = none) ∨
  (j.status = "error" ∧ j.error.isSome ∧ j.result = none)

/-- The inductive invariant of the server state. -/
def SysInv (s : SysState) : Prop :=
  s.pending.Nodup ∧
  (∀ jid, jid ∈ s.pending → jid ∈ s.used) ∧
  (∀ jid j, s.registry jid = some j → JobShape j) ∧
  (∀ jid, jid ∈ s.pending → ∀ j, s.registry jid = some j →
    j.status = "processing" ∧ j.result = none ∧ j.error = none)

theorem limpar_sub (r : Registry) (t : Int) (jid : String) (j : Job)
    (h : limpar_jobs_antigos r t jid = some j) : r jid = some j := by
  unfold limpar_jobs_antigos at h
  cases hr : r jid with
  | none => rw [hr] at h; cases h
  | some j0 =>
    rw [hr] at h
    by_cases hc : t - j0.created_at > 3600
    · simp [hc] at h
    · simp [hc] at h; rw [h]

theorem setJob_self (r : Registry) (jid : String) (j : Job) :
    setJob r jid j jid = some j := by
  unfold setJob; rw [if_pos rfl]

theorem setJob_other (r : Registry) (jid k : String) (j : Job) (h : k ≠ jid) :
    setJob r jid j k = r k := by
  unfold setJob; rw [if_neg h]

/-- The job written at jid by a background execution that found its entry:
the terminal outcome merged into the previous job. -/
def terminalJob (j : Job) (fetch : Except String ResultadoRastreamento) : Job :=
  match fetch with
  | .ok resultado => { j with status := "done", result := some resultado }
  | .error e => { j with status := "error", error := some e }

theorem setJob_setJob (r : Registry) (jid : String) (a b : Job) :
    setJob (setJob r jid a) jid b = setJob r jid b := by
  funext k
  unfold setJob
  by_cases hk : k = jid <;> simp [hk]

theorem executar_job_of_present (r : Registry) (jid : String)
    (fetch : Except String ResultadoRastreamento) (j : Job) (h : r jid = some j) :
    executar_job r jid fetch =
      (setJob r jid (terminalJob j fetch), none) := by
  cases fetch with
  | ok resultado =>
    simp only [executar_job, updateJob, h, setJob_self, terminalJob, setJob_setJob]
  | error e =>
    simp only [executar_job, updateJob, h, setJob_self, terminalJob, setJob_setJob]

theorem executar_job_of_absent (r : Registry) (jid : String)
    (fetch : Except String ResultadoRastreamento) (h : r jid = none) :
    executar_job r jid fetch = (r, some (keyErrorMsg jid)) := by
  cases fetch with
  | ok resultado => simp only [executar_job, updateJob, h]
  | error e => simp only [executar_job, updateJob, h]

theorem sysInv_init : SysInv { registry := emptyRegistry, pending := [], used := [] } := by
  refine ⟨List.nodup_nil, ?_, ?_, ?_⟩
  · intro jid hm; cases hm
  · intro jid j hj; cases hj
  · intro jid hm; cases hm

theorem sysInv_step {s s2 : SysState} (hinv : SysInv s) (hstep : Step s s2) :
    SysInv s2 := by
  obtain ⟨hnd, hpu, hshape, hproc⟩ := hinv
  cases hstep with
  | submit now jid nf cnpj h =>
    refine ⟨?_, ?_, ?_, ?_⟩
    · simp only [rastrear]
      exact List.Nodup.cons (fun hm => h (hpu jid hm)) hnd
    · intro k hk
      simp only [rastrear] at hk
      rcases List.mem_cons.mp hk with hk | hk
      · exact List.mem_cons.mpr (Or.inl hk)
      · exact List.mem_cons.mpr (Or.inr (hpu k hk))
    · intro k j hkj
      simp only [rastrear] at hkj
      by_cases hkid : k = jid
      · subst hkid
        rw [setJob_self] at hkj
        injection hkj with hjj
        subst hjj
        exact Or.inl ⟨rfl, rfl, rfl⟩
      · rw [setJob_other _ _ _ _ hkid] at hkj
        exact hshape k j (limpar_sub _ _ _ _ hkj)
    · intro k hk j hkj
      simp only [rastrear] at hk hkj
      by_cases hkid : k = jid
      · subst hkid
        rw [setJob_self] at hkj
        injection hkj with hjj
        subst hjj
        exact ⟨rfl, rfl, rfl⟩
      · rcases List.mem_cons.mp hk with he | he
        · exact absurd he hkid
        · rw [setJob_other _ _ _ _ hkid] at hkj
          exact hproc k he j (limpar_sub _ _ _ _ hkj)
  | run jid fetch h =>
    cases hrj : s.registry jid with
    | none =>
      have hre : (executar_job s.registry jid fetch).1 = s.registry := by
        rw [executar_job_of_absent _ _ _ hrj]
      refine ⟨List.Nodup.erase jid hnd, ?_, ?_, ?_⟩
      · intro k hk
        exact hpu k (List.mem_of_mem_erase hk)
      · intro k j hkj
        rw [hre] at hkj
        exact hshape k j hkj
      · intro k hk j hkj
        rw [hre] at hkj
        exact hproc k (List.mem_of_mem_erase hk) j hkj
    | some j =>
      have hterm : (executar_job s.registry jid fetch).1 =
          setJob s.registry jid (terminalJob j fetch) := by
        rw [executar_job_of_present _ _ _ _ hrj]
      obtain ⟨hps, hpr, hpe⟩ := hproc jid h j hrj
      refine ⟨List.Nodup.erase jid hnd, ?_, ?_, ?_⟩
      · intro k hk
        exact hpu k (List.mem_of_mem_erase hk)
      · intro k j2 hkj
        dsimp only at hkj
        rw [hterm] at hkj
        by_cases hkid : k = jid
        · subst hkid
          rw [setJob_self] at hkj
          injection hkj with hjj
          subst hjj
          cases fetch with
          | ok resultado => exact Or.inr (Or.inl ⟨rfl, rfl, hpe⟩)
          | error e => exact Or.inr (Or.inr ⟨rfl, rfl, hpr⟩)
        · rw [setJob_other _ _ _ _ hkid] at hkj
          exact hshape k j2 hkj
      · intro k hk j2 hkj
        have hk2 := (List.Nodup.mem_erase_iff hnd).mp hk
        dsimp only at hkj
        rw [hterm, setJob_other _ _ _ _ hk2.1] at hkj
        exact hproc k hk2.2 j2 hkj

theorem reachable_sysInv {s : SysState} (h : Reachable s) : SysInv s := by
  induction h with
  | init => exact sysInv_init
  | step hs hstep ih => exact sysInv_step ih hstep

theorem keyMap_data {k : String} (h : keyMap k = some Campo.data) : k = "Data" := by
  unfold keyMap at h
  split_ifs at h with h1 h2 h3 h4 h5 h6
  · exact h1
  all_goals simp_all

theorem pairStep_flush_of_nonData {k : String} (cur : Evento) (v : String)
    (hk : k ≠ "Data") : (pairStep cur k v).1 = [] := by
  simp [pairStep, hk]

theorem pairStep_data_of_nonData {k : String} (cur : Evento) (v : String)
    (hk : k ≠ "Data") : ((pairStep cur k v).2).data = cur.data := by
  simp only [pairStep, if_neg hk]
  cases hf : keyMap k with
  | none => rfl
  | some f =>
    have hfd : f ≠ Campo.data := fun hd => hk (keyMap_data (hd ▸ hf))
    cases f with
    | data => exact absurd rfl hfd
    | status => rfl
    | estado_origem => rfl
    | municipio_origem => rfl
    | estado_destino => rfl
    | municipio_destino => rfl

/-- The in-progress record accumulated by the scraping loop over a list of
pairs that never flushes, i.e. the fold of the per-pair update. -/
def preFold (pre : List (String × String)) : Evento :=
  List.foldl (fun c kv => (pairStep c kv.1 kv.2).2) Evento.empty pre

theorem fold_data_of_noData (pre : List (String × String)) (cur : Evento)
    (h : ∀ kv ∈ pre, kv.1 ≠ "Data") :
    (List.foldl (fun c kv => (pairStep c kv.1 kv.2).2) cur pre).data = cur.data := by
  induction pre generalizing cur with
  | nil => rfl
  | cons kv rest ih =>
    rw [List.foldl_cons, ih _ (fun x hx => h x (List.mem_cons_of_mem kv hx))]
    exact pairStep_data_of_nonData cur kv.2 (h kv (List.mem_cons_self kv rest))

theorem scanPairs_append_of_noData (pre l : List (String × String)) (cur : Evento)
    (h : ∀ kv ∈ pre, kv.1 ≠ "Data") :
    scanPairs (pre ++ l) cur =
      scanPairs l (List.foldl (fun c kv => (pairStep c kv.1 kv.2).2) cur pre) := by
  induction pre generalizing cur with
  | nil => rfl
  | cons kv rest ih =>
    obtain ⟨k, v⟩ := kv
    have hk : k ≠ "Data" := h (k, v) (List.mem_cons_self _ _)
    rw [List.cons_append]
    show (pairStep cur k v).1 ++ scanPairs (rest ++ l) (pairStep cur k v).2 = _
    rw [pairStep_flush_of_nonData cur v hk, List.nil_append,
      ih _ (fun x hx => h x (List.mem_cons_of_mem _ hx)), List.foldl_cons]

theorem scanPairs_data_cons (cur : Evento) (v : String)
    (rest : List (String × String)) (h : cur.vazio = false) :
    scanPairs (("Data", v) :: rest) cur =
      cur :: scanPairs rest (Evento.set Evento.empty Campo.data v) := by
  show (pairStep cur "Data" v).1 ++ scanPairs rest (pairStep cur "Data" v).2 = _
  simp [pairStep, keyMap, h]

theorem scanPairs_data_cons_empty (v : String) (rest : List (String × String)) :
    scanPairs (("Data", v) :: rest) Evento.empty =
      scanPairs rest (Evento.set Evento.empty Campo.data v) := by
  show (pairStep Evento.empty "Data" v).1 ++ scanPairs rest (pairStep Evento.empty "Data" v).2 = _
  simp [pairStep, keyMap, Evento.empty, Evento.vazio]

/-- A concrete successful lookup result, used as a fetch outcome in
counterexamples and witnesses. -/
def resEx : ResultadoRastreamento :=
  { nf := "123456", origem := none, destino := none, previsao_entrega := none
    status_atual := none, historico := [] }

/-- C1 counterexample: when the registry entry of the job was evicted before
the background execution finishes, the execution does not move the job to a
terminal state and does not convert the failure into an error record:
the KeyError raised inside the except block escapes the background-execution
boundary (second component some), and the registry still has no entry for
the job.  This refutes the claim for the evicted case, at the concrete input
of the empty registry, job id j1 and a successful fetch. -/
theorem executar_job_evicted_raises :
    executar_job emptyRegistry "j1" (Except.ok resEx) =
      (emptyRegistry, some (keyErrorMsg "j1")) ∧
    emptyRegistry "j1" = none :=
  ⟨executar_job_of_absent emptyRegistry "j1" (Except.ok resEx) rfl, rfl⟩

/-- C1 (amended): for every job whose registry entry is still present when
the background execution completes, the execution never lets an exception
escape, and it always records a terminal state: on a successful fetch the
job gets status done carrying the result, and on any fetch failure the job
gets status error carrying the message of the exception. -/
theorem executar_job_terminal_of_present (r : Registry) (jid : String)
    (fetch : Except String ResultadoRastreamento) (j : Job) (h : r jid = some j) :
    (executar_job r jid fetch).2 = none ∧
    (executar_job r jid fetch).1 jid = some (terminalJob j fetch) ∧
    (∀ res, fetch = Except.ok res →
      (terminalJob j fetch).status = "done" ∧ (terminalJob j fetch).result = some res) ∧
    (∀ e, fetch = Except.error e →
      (terminalJob j fetch).status = "error" ∧ (terminalJob j fetch).error = some e) := by
  rw [executar_job_of_present r jid fetch j h]
  refine ⟨rfl, setJob_self _ _ _, ?_, ?_⟩
  · intro res hres; subst hres; exact ⟨rfl, rfl⟩
  · intro e he; subst he; exact ⟨rfl, rfl⟩

/-- A concrete successful fetch outcome. -/
def fetchEx : Except String ResultadoRastreamento := Except.ok resEx

theorem executar_job_terminal_of_present_witness :
    (executar_job (setJob emptyRegistry "j1" (novoJob 0)) "j1" fetchEx).2 = none ∧
    (executar_job (setJob emptyRegistry "j1" (novoJob 0)) "j1" fetchEx).1 "j1" =
      some (terminalJob (novoJob 0) fetchEx) ∧
    (∀ res, fetchEx = Except.ok res →
      (terminalJob (novoJob 0) fetchEx).status = "done" ∧
      (terminalJob (novoJob 0) fetchEx).result = some res) ∧
    (∀ e, fetchEx = Except.error e →
      (terminalJob (novoJob 0) fetchEx).status = "error" ∧
      (terminalJob (novoJob 0) fetchEx).error = some e) :=
  executar_job_terminal_of_present (setJob emptyRegistry "j1" (novoJob 0)) "j1"
    fetchEx (novoJob 0) (setJob_self emptyRegistry "j1" (novoJob 0))

/-- C2: over every flat ordered list of label/value pairs, the scraping loop
computes exactly the event history described by the normalization rule of
the spec: the Data label flushes the non-empty in-progress record and starts
a new record with that date, every other recognized label populates its
field, unrecognized labels change nothing, and the trailing non-empty record
is flushed, so output order equals source order. -/
theorem scan_matches_spec_rule (pairs : List (String × String)) (cur : Evento) :
    scanPairs pairs cur = specScan pairs cur := by
  induction pairs generalizing cur with
  | nil => rfl
  | cons kv rest ih =>
    obtain ⟨k, v⟩ := kv
    by_cases hk : k = "Data"
    · subst hk
      simp [scanPairs, specScan, pairStep, keyMap, Evento.set, ih]
    · simp only [scanPairs, specScan, if_neg hk, pairStep]
      cases hf : keyMap k with
      | none => simp [hf, if_neg hk, ih]
      | some f => simp [hf, if_neg hk, ih]

/-- C3: for every successful lookup result assembled by scrape_jamef, the
status_atual field is exactly the status field of the first event of the
historico when the history is non-empty, and is absent when the history is
empty. -/
theorem status_atual_eq_first_event_status (numero_nf cnpj : String)
    (dados : DadosPagina) (paras : List Para) :
    (scrape_jamef numero_nf cnpj dados paras).status_atual =
      Option.bind ((scrape_jamef numero_nf cnpj dados paras).historico).head? Evento.status := by
  unfold scrape_jamef montarResultado
  generalize scanParas paras Evento.empty = hist
  cases hist <;> rfl

/-- The server state reached by one rastrear request at time 0 with fresh
uuid j1, whose background task has not yet run. -/
def s1 : SysState :=
  { registry := (rastrear emptyRegistry [] 0 "j1" "100" CNPJ_PADRAO).1
    pending := (rastrear emptyRegistry [] 0 "j1" "100" CNPJ_PADRAO).2.1
    used := ["j1"] }

theorem reachable_s1 : Reachable s1 :=
  Reachable.step Reachable.init
    (Step.submit { registry := emptyRegistry, pending := [], used := [] }
      0 "j1" "100" CNPJ_PADRAO (by simp))

/-- C4 counterexample: a status poll never runs eviction and takes no
clock input, so a job created at time 0 is still returned by a poll
performed at any later time, in particular at time 7200, which is past the
one-hour retention window (7200 - 0 is greater than 3600).  The reachable
state s1 holds the job created at time 0 and the poll still finds it,
refuting the claim that any get after creation plus the retention window
finds the job absent. -/
theorem eviction_not_time_triggered_cex :
    Reachable s1 ∧
    s1.registry "j1" = some (novoJob 0) ∧
    ((7200 : Int) - (novoJob 0).created_at > 3600) ∧
    status s1.registry "j1" =
      some { job_id := "j1", status := "processing", result := none, error := none } := by
  refine ⟨reachable_s1, rfl, by decide, rfl⟩

/-- C4 (amended): eviction is not triggered by polling or by the passage of
time, but only when limpar_jobs_antigos runs (during submission
housekeeping); one eviction pass at time t removes exactly the jobs whose
age exceeds the one-hour window: after it, a job is present under its id
if and only if it was present before and t minus its creation time is at
most 3600. -/
theorem limpar_present_iff_fresh (r : Registry) (t : Int) (jid : String) (j : Job) :
    limpar_jobs_antigos r t jid = some j ↔
      (r jid = some j ∧ t - j.created_at ≤ 3600) := by
  unfold limpar_jobs_antigos
  cases hr : r jid with
  | none => simp
  | some j0 =>
    by_cases hc : t - j0.created_at > 3600
    · simp only [if_pos hc]
      constructor
      · intro hh; cases hh
      · rintro ⟨hh, hle⟩
        injection hh with hjj
        subst hjj
        omega
    · simp only [if_neg hc]
      constructor
      · intro hh
        injection hh with hjj
        subst hjj
        exact ⟨rfl, by omega⟩
      · rintro ⟨hh, _⟩
        exact hh

/-- C5: in every reachable server state, every job present in the registry
has status done exactly when its result is present and status error exactly
when its error message is present; and a job whose background execution has
not yet run is still processing with both outcome fields absent. -/
theorem reachable_job_shape (s : SysState) (hs : Reachable s) (jid : String) (j : Job)
    (hj : s.registry jid = some j) :
    (j.status = "done" ↔ j.result.isSome = true) ∧
    (j.status = "error" ↔ j.error.isSome = true) ∧
    (jid ∈ s.pending → j.status = "processing" ∧ j.result = none ∧ j.error = none) := by
  obtain ⟨hnd, hpu, hshape, hproc⟩ := reachable_sysInv hs
  have hsh := hshape jid j hj
  rcases hsh with ⟨h1, h2, h3⟩ | ⟨h1, h2, h3⟩ | ⟨h1, h2, h3⟩ <;>
    refine ⟨?_, ?_, fun hp => hproc jid hp j hj⟩ <;> simp [h1, h2, h3]

theorem reachable_job_shape_witness :
    ((novoJob 0).status = "done" ↔ (novoJob 0).result.isSome = true) ∧
    ((novoJob 0).status = "error" ↔ (novoJob 0).error.isSome = true) ∧
    ("j1" ∈ s1.pending → (novoJob 0).status = "processing" ∧
      (novoJob 0).result = none ∧ (novoJob 0).error = none) :=
  reachable_job_shape s1 reachable_s1 "j1" (novoJob 0) rfl

/-- C6: every rastrear request first runs the eviction pass, then inserts a
fresh job with status processing created at the current time, then
schedules the background task, and returns the job id immediately with a
processing response; the submission is a total function of the request
inputs alone and does not consult any fetch outcome, so it cannot fail due
to upstream issues. -/
theorem rastrear_contract (r : Registry) (pending : List String) (now : Int)
    (jid numero_nf cnpj : String) :
    (rastrear r pending now jid numero_nf cnpj).2.2.job_id = jid ∧
    (rastrear r pending now jid numero_nf cnpj).2.2.status = "processing" ∧
    (rastrear r pending now jid numero_nf cnpj).2.1 = jid :: pending ∧
    (∀ k, (rastrear r pending now jid numero_nf cnpj).1 k =
      if k = jid then some (novoJob now) else limpar_jobs_antigos r now k) := by
  refine ⟨rfl, rfl, rfl, fun k => ?_⟩
  by_cases hk : k = jid
  · subst hk; rw [if_pos rfl]; exact setJob_self _ _ _
  · rw [if_neg hk]; exact setJob_other _ _ _ _ hk

/-- Modelled from the spec: the Token Cache component (spec section 4.3) has
no implementation under src in this repository, which only contains the
browser-scraping strategy; per the spec a credential token is a cached
bearer value plus an absolute expiry time. -/
structure Token where
  value : String
  expiry : Int
deriving DecidableEq

/-- Modelled from the spec: get_token returns the cached token unchanged
when more than the safety margin remains before its expiry; otherwise it
invokes the Auth Fetcher collaborator (modelled as the token that a fetch
would return), replaces the cache wholesale and returns the new token.
The boolean records whether the Auth Fetcher was invoked by this call. -/
def get_token (cache : Option Token) (now margin : Int) (fetched : Token) :
    String × Option Token × Bool :=
  match cache with
  | some t =>
    if t.expiry - now > margin then (t.value, some t, false)
    else (fetched.value, some fetched, true)
  | none => (fetched.value, some fetched, true)

/-- C7: two get_token calls both made while the cached token still has more
than the safety margin remaining before expiry return the identical token
value and never invoke the Auth Fetcher, and the cache is unchanged between
them; a call made at or after expiry minus the safety margin invokes the
Auth Fetcher exactly once, returns the fetched token and replaces the cache
wholesale. -/
theorem get_token_reuse (t fA fB fC : Token) (now1 now2 now3 margin : Int)
    (h1 : t.expiry - now1 > margin) (h2 : t.expiry - now2 > margin)
    (h3 : t.expiry - now3 ≤ margin) :
    get_token (some t) now1 margin fA = (t.value, some t, false) ∧
    get_token (get_token (some t) now1 margin fA).2.1 now2 margin fB =
      (t.value, some t, false) ∧
    get_token (some t) now3 margin fC = (fC.value, some fC, true) := by
  have e1 : get_token (some t) now1 margin fA = (t.value, some t, false) := by
    simp [get_token, h1]
  refine ⟨e1, ?_, ?_⟩
  · rw [e1]; simp [get_token, h2]
  · have h3n : ¬(t.expiry - now3 > margin) := by omega
    simp [get_token, h3n]

theorem get_token_reuse_witness :
    get_token (some { value := "tok", expiry := 1000 }) 100 300 { value := "x", expiry := 0 } =
      ("tok", some { value := "tok", expiry := 1000 }, false) ∧
    get_token (get_token (some { value := "tok", expiry := 1000 }) 100 300
        { value := "x", expiry := 0 }).2.1 200 300 { value := "x", expiry := 0 } =
      ("tok", some { value := "tok", expiry := 1000 }, false) ∧
    get_token (some { value := "tok", expiry := 1000 }) 900 300 { value := "tok2", expiry := 5000 } =
      ("tok2", some { value := "tok2", expiry := 5000 }, true) :=
  get_token_reuse { value := "tok", expiry := 1000 } { value := "x", expiry := 0 }
    { value := "x", expiry := 0 } { value := "tok2", expiry := 5000 }
    100 200 900 300 (by decide) (by decide) (by decide)

/-- C8: a status poll with a job id that is absent from the registry (never
issued or already evicted) yields the 404 not-found response rather than a
job view; the endpoint only reads the registry, which its type records (it
returns no registry). -/
theorem status_unknown_404 (r : Registry) (jid : String) (h : r jid = none) :
    status r jid = none := by
  unfold status; rw [h]

theorem status_unknown_404_witness : status emptyRegistry "sem-job" = none :=
  status_unknown_404 emptyRegistry "sem-job" rfl

/-- C9: when recognized labels other than Data occur before the first Data
label, their values accumulate into a leading record with no date field,
and that record is flushed at position 0 of the history when the first Data
label arrives, so the first event of the output can come from a dateless
record. -/
theorem leading_dateless_record (pre : List (String × String)) (v : String)
    (rest : List (String × String))
    (hnd : ∀ kv ∈ pre, kv.1 ≠ "Data")
    (hne : (preFold pre).vazio = false) :
    historicoPairs (pre ++ ("Data", v) :: rest) =
      preFold pre :: historicoPairs (("Data", v) :: rest) ∧
    (preFold pre).data = none := by
  constructor
  · unfold historicoPairs
    rw [scanPairs_append_of_noData _ _ _ hnd]
    unfold preFold at hne
    rw [scanPairs_data_cons _ _ _ hne, scanPairs_data_cons_empty]
    rfl
  · unfold preFold
    rw [fold_data_of_noData pre Evento.empty hnd]
    rfl

theorem leading_dateless_record_witness :
    historicoPairs ([("Status", "Coletado")] ++ ("Data", "01/01") :: []) =
      preFold [("Status", "Coletado")] :: historicoPairs (("Data", "01/01") :: []) ∧
    (preFold [("Status", "Coletado")]).data = none :=
  leading_dateless_record [("Status", "Coletado")] "01/01" [] (by decide) (by decide)

/-- C10: a paragraph of the history markup that contains no bold element is
skipped entirely by the scraping loop: it neither populates a field of the
in-progress record, nor flushes, nor resets it, so the scan of the
remaining paragraphs proceeds from the unchanged state and the output is
unaffected. -/
theorem boldless_paragraph_skipped (p : Para) (rest : List Para) (cur : Evento)
    (h : p.bold = none) :
    scanParas (p :: rest) cur = scanParas rest cur := by
  simp [scanParas, h]

theorem boldless_paragraph_skipped_witness :
    scanParas [{ bold := none, text := "sem rotulo" }] Evento.empty =
      scanParas [] Evento.empty :=
  boldless_paragraph_skipped { bold := none, text := "sem rotulo" } [] Evento.empty rfl
